import Mathlib

/-!
# Concur-WebServer: the accept loop of `hServer/serve.go`

A shallow embedding of `Server.ListenAndServe`, `Server.Serve`, `Server.logf`,
`Server.newConn` and `Server.setupHTTP2`.

* A `net.Listener` is the list of the results of its successive `Accept` calls.
  `Serve` consumes that list from the front; when the list is used up the loop
  is blocked in its next `Accept` and `Serve` has not returned.
* Every call that leaves `serve.go` (and every `newConn` call) is recorded, in
  program order, in a trace of `Event`s.
* `time.Duration` is a signed 64-bit nanosecond count; the one arithmetic
  operation of the loop, `tDel *= 2`, wraps like Go's `int64`.
* Names that `serve.go` uses but does not declare (`testHookServerServe` is
  declared but never assigned; `onceSetNextProtoDefaults`,
  `debugServerConnections`, `newLoggingConn`, `net.Listen`) are fields of `Env`.
-/

namespace HServer

/-! ## Data model -/

/-! A `time.Duration` is a signed 64-bit count of nanoseconds: an `Int` here,
kept in range by `int64`. -/

/-- Two's-complement wrap-around of a mathematical integer to Go's `int64`. -/
def int64 (x : Int) : Int := (x + 2 ^ 63) % 2 ^ 64 - 2 ^ 63

/-- `time.Millisecond`. -/
def Millisecond : Int := 1000000

/-- `time.Second`. -/
def Second : Int := 1000000000

/-- `a * b` on `time.Duration` (an `int64` multiplication). -/
def Duration.mul (a b : Int) : Int := int64 (a * b)

/-- A non-nil Go `error` value. `plain` does not implement `net.Error`;
`netError` does, and carries what its `Temporary()` method answers. -/
inductive GoError
  | plain (msg : String)
  | netError (msg : String) (temporary : Bool)
deriving DecidableEq, Repr

/-- The test of line 90: `ne, ok := err.(net.Error); ok && ne.Temporary()`. -/
def GoError.isTemporary : GoError → Bool
  | .plain _ => false
  | .netError _ t => t

/-- A `net.Conn` value, identified by a number. -/
structure NetConn where
  fd : Nat
deriving DecidableEq, Repr

/-- A `sync.Once`: its `done` flag. -/
structure Once where
  done : Bool
deriving DecidableEq, Repr

/-- The `Server` struct (lines 16-25). `ErrorLog` is read by `logf` although
the struct of `serve.go` does not declare it; `none` is Go's `nil`. -/
structure Server where
  Addr : String
  Handler : Option Nat
  ReadTimeout : Int
  WriteTimeout : Int
  MaxHeaderBytes : Int
  ErrorLog : Option Nat
  nextProtoErr : Option GoError
  nextProtoOnce : Once
deriving DecidableEq, Repr

/-- The literal `&Server{}`: every field at its zero value. -/
def Server.zero : Server :=
  ⟨"", none, 0, 0, 0, none, none, ⟨false⟩⟩

/-- The `conn` built by `newConn`: the server it belongs to and its socket.
The field `server` is a pointer in Go; here it is the server as it is when the
conn is built. -/
structure conn where
  server : Server
  rwc : NetConn
deriving DecidableEq, Repr

/-- `StateNew` (line 39). -/
def StateNew : Int := 0

/-- What one `listener.Accept()` call returns: `(rw, err)`, `err = none` being
Go's `nil`. -/
structure AcceptResult where
  rw : NetConn
  err : Option GoError
deriving DecidableEq, Repr

/-- A `net.Listener`: the results of its successive `Accept` calls. -/
abbrev Listener := List AcceptResult

/-- `tcpKeepAliveListener` (lines 28-30): embeds the TCP listener; `serve.go`
declares no method on it, so `Accept` and `Close` are the embedded ones. -/
structure tcpKeepAliveListener where
  TCPListner : Listener
deriving DecidableEq, Repr

/-- Where `logf` prints: the server's own `ErrorLog`, or the standard logger
of package `log`. -/
inductive Sink
  | errorLog (logger : Nat)
  | standard
deriving DecidableEq, Repr

/-- An argument handed to `Printf`. -/
inductive LogArg
  | err (e : GoError)
  | dur (d : Int)
deriving DecidableEq, Repr

/-- The calls `serve.go` makes, as they appear in a trace. -/
inductive Event
  | listen (network address : String)
  | testHook
  | onceSetNextProtoDefaults
  | accept (r : AcceptResult)
  | printf (sink : Sink) (format : String) (args : List LogArg)
  | sleep (d : Int)
  | newConn (rwc : NetConn)
  | setState (c : conn) (nc : NetConn) (state : Int)
  | go (c : conn)
  | close
deriving DecidableEq, Repr

/-- What `serve.go` uses without defining it. -/
structure Env where
  /-- The package variable `testHookServerServe`: `none` is `nil`, `some fn`
  is a hook, given as its effect on the server. -/
  testHookServerServe : Option (Server → Server)
  /-- The method `onceSetNextProtoDefaults`, given as its effect on the server. -/
  onceSetNextProtoDefaults : Server → Server
  /-- The constant `debugServerConnections`. -/
  debugServerConnections : Bool
  /-- The function `newLoggingConn`. -/
  newLoggingConn : String → NetConn → NetConn
  /-- The function `net.Listen`: an error, or the listener it opens. -/
  netListen : String → String → Except GoError Listener

/-- The state of a running `Serve`: the server, the calls made so far, and
the error returned (`none` while `Serve` has not returned). -/
structure Outcome where
  server : Server
  trace : List Event
  ret : Option GoError

/-! ## The functions of `serve.go` -/

/-- `sync.Once.Do(f)` on the server's `nextProtoOnce`, called sequentially:
`f` runs only while `done` is unset, and `done` is set when `f` has run. -/
def Server.nextProtoOnceDo (server : Server) (f : Server → Server) :
    Server × List Event :=
  if server.nextProtoOnce.done then (server, [])
  else ({ f server with nextProtoOnce := ⟨true⟩ }, [Event.onceSetNextProtoDefaults])

/-- `Server.setupHTTP2` (lines 134-137): the server afterwards, the calls made
and the returned `error`. -/
def Server.setupHTTP2 (server : Server) (env : Env) :
    Server × List Event × Option GoError :=
  let r := server.nextProtoOnceDo env.onceSetNextProtoDefaults
  (r.1, r.2, r.1.nextProtoErr)

/-- `Server.logf` (lines 114-120). -/
def Server.logf (s : Server) (format : String) (args : List LogArg) : Event :=
  match s.ErrorLog with
  | some logger => Event.printf (Sink.errorLog logger) format args
  | none => Event.printf Sink.standard format args

/-- `Server.newConn` (lines 123-132). -/
def Server.newConn (srv : Server) (env : Env) (rwc : NetConn) : conn :=
  let c : conn := ⟨srv, rwc⟩
  if env.debugServerConnections then ⟨c.server, env.newLoggingConn "server" c.rwc⟩
  else c

/-- The local state of the `for` loop of `Serve`: `tDel`, the calls made so
far, and the error of the `return err` of line 104 once it was executed. -/
structure LoopState where
  tDel : Int
  trace : List Event
  ret : Option GoError

/-- Lines 91-98: the new value of `tDel` on a temporary accept failure. -/
def nextDelay (tDel : Int) : Int :=
  let tDel := if tDel = 0 then 5 * Millisecond else Duration.mul tDel 2
  if tDel > 1 * Second then 1 * Second else tDel

/-- One turn of the `for` loop of `Serve` (lines 88-109), `r` being what
`listener.Accept()` returns in it. After `return err` no turn is taken. -/
def Server.acceptIteration (server : Server) (env : Env) (st : LoopState)
    (r : AcceptResult) : LoopState :=
  match st.ret with
  | some _ => st
  | none =>
    match r.err with
    | some err =>
      if err.isTemporary then
        let tDel := nextDelay st.tDel
        ⟨tDel,
         st.trace ++ [Event.accept r,
           server.logf "http: Accept failure: %v; try again in %v"
             [LogArg.err err, LogArg.dur tDel],
           Event.sleep tDel],
         none⟩
      else ⟨st.tDel, st.trace ++ [Event.accept r], some err⟩
    | none =>
      let c := server.newConn env r.rw
      ⟨0,
       st.trace ++ [Event.accept r, Event.newConn r.rw,
         Event.setState c c.rwc StateNew, Event.go c],
       none⟩

/-- The `for` loop of `Serve` continued from the state `st` over the accept
results `listener`. -/
def Server.loopFrom (server : Server) (env : Env) (st : LoopState)
    (listener : Listener) : LoopState :=
  listener.foldl (server.acceptIteration env) st

/-- The call of the test hook (lines 76-78). -/
def Server.runTestHook (server : Server) (env : Env) : Server × List Event :=
  match env.testHookServerServe with
  | some fn => (fn server, [Event.testHook])
  | none => (server, [])

/-- Leaving `Serve`: when the loop has executed `return err`, the deferred
`listener.Close()` of line 75 runs and `err` is returned. -/
def LoopState.leave (st : LoopState) (server : Server) : Outcome :=
  match st.ret with
  | some err => ⟨server, st.trace ++ [Event.close], some err⟩
  | none => ⟨server, st.trace, none⟩

/-- `Server.Serve` (lines 74-111) on a listener whose `Accept` calls return
the elements of `listener` in turn. The deferred `listener.Close()` is the
last call of a `Serve` that returns. -/
def Server.Serve (server : Server) (env : Env) (listener : Listener) : Outcome :=
  let h := server.runTestHook env
  let s := h.1.setupHTTP2 env
  match s.2.2 with
  | some err => ⟨s.1, h.2 ++ s.2.1 ++ [Event.close], some err⟩
  | none => (s.1.loopFrom env ⟨0, h.2 ++ s.2.1, none⟩ listener).leave s.1

/-- `Server.ListenAndServe` (lines 49-65). -/
def Server.ListenAndServe (server : Server) (env : Env) : Outcome :=
  let address := server.Addr
  let address := if address = "" then ":http" else address
  match env.netListen "tcp" address with
  | .error err => ⟨server, [Event.listen "tcp" address], some err⟩
  | .ok listener =>
    let k : tcpKeepAliveListener := ⟨listener⟩
    let o := server.Serve env k.TCPListner
    ⟨o.server, Event.listen "tcp" address :: o.trace, o.ret⟩

/-- The package function `ListenAndServe` (lines 44-47). -/
def ListenAndServe (env : Env) (address : String) (handler : Option Nat) : Outcome :=
  let server : Server := { Server.zero with Addr := address, Handler := handler }
  server.ListenAndServe env

/-- The package function `Serve` (lines 69-72). -/
def Serve (env : Env) (listener : Listener) (handler : Option Nat) : Outcome :=
  let server : Server := { Server.zero with Handler := handler }
  server.Serve env listener

/-- `n` sequential calls of `setupHTTP2` on one server: for each call, the
calls it made and the `error` it returned. -/
def Server.setupHTTP2Calls (env : Env) : Nat → Server → List (List Event × Option GoError)
  | 0, _ => []
  | n + 1, server =>
    let r := server.setupHTTP2 env
    (r.2.1, r.2.2) :: Server.setupHTTP2Calls env n r.1

/-! ## Reading a trace -/

/-- The durations slept, in order. -/
def sleeps (tr : List Event) : List Int :=
  tr.filterMap fun e => match e with
    | Event.sleep d => some d
    | _ => none

/-- The results of the `Accept` calls, in order. -/
def accepts (tr : List Event) : List AcceptResult :=
  tr.filterMap fun e => match e with
    | Event.accept r => some r
    | _ => none

/-- The `(network, address)` pairs of the `net.Listen` calls, in order. -/
def listens (tr : List Event) : List (String × String) :=
  tr.filterMap fun e => match e with
    | Event.listen n a => some (n, a)
    | _ => none

/-- The calls that follow an `Accept` returning `r` when each accepted socket
gets one conn: for a successful accept, `newConn` on the socket, `setState` of
that conn to `StateNew` and the `go` of its `serve`; for a failed one, none. -/
def Server.connCalls (srv : Server) (env : Env) (r : AcceptResult) : List Event :=
  match r.err with
  | none =>
    [Event.newConn r.rw,
     Event.setState (srv.newConn env r.rw) (srv.newConn env r.rw).rwc StateNew,
     Event.go (srv.newConn env r.rw)]
  | some _ => []

/-- Whether the event is a call that accepts or serves a connection. -/
def Event.isConnWork : Event → Bool
  | Event.accept _ => true
  | Event.newConn _ => true
  | Event.setState _ _ _ => true
  | Event.go _ => true
  | _ => false

/-- Whether the event is a log message or a sleep. -/
def Event.isLogOrSleep : Event → Bool
  | Event.printf _ _ _ => true
  | Event.sleep _ => true
  | _ => false

/-- Whether the event is an `Accept` call. -/
def Event.isAccept : Event → Bool
  | Event.accept _ => true
  | _ => false

/-- The first error of the listener that is not a temporary `net.Error`. -/
def firstFatal : Listener → Option GoError
  | [] => none
  | r :: rest =>
    match r.err with
    | some err => if err.isTemporary then firstFatal rest else some err
    | none => firstFatal rest

/-- Whether the accept failed with a temporary `net.Error`. -/
def AcceptResult.isTemporary (r : AcceptResult) : Bool :=
  match r.err with
  | some err => err.isTemporary
  | none => false

/-- The `error` that the setup of `Serve` (line 83) returns, the test hook
having run. -/
def Server.setupErr (server : Server) (env : Env) : Option GoError :=
  ((server.runTestHook env).1.setupHTTP2 env).2.2

/-- The server as the `for` loop of `Serve` sees it. -/
def Server.ready (server : Server) (env : Env) : Server :=
  ((server.runTestHook env).1.setupHTTP2 env).1

/-- The calls `Serve` makes before its `for` loop. -/
def Server.prologue (server : Server) (env : Env) : List Event :=
  (server.runTestHook env).2 ++ ((server.runTestHook env).1.setupHTTP2 env).2.1

/-- The sink `logf` prints to. -/
def Server.sink (s : Server) : Sink :=
  match s.ErrorLog with
  | some logger => Sink.errorLog logger
  | none => Sink.standard

/-- The accept results the loop consumes: those up to the first error that
is not a temporary `net.Error`, that one included. -/
def acceptedPart : Listener → Listener
  | [] => []
  | r :: rest =>
    match r.err with
    | some err => if err.isTemporary then r :: acceptedPart rest else [r]
    | none => r :: acceptedPart rest

/-- The state of the `for` loop of `Serve` when the accept results `listener`
have been consumed, the setup having succeeded. -/
def Server.loop (server : Server) (env : Env) (listener : Listener) : LoopState :=
  (server.ready env).loopFrom env ⟨0, server.prologue env, none⟩ listener

/-- The invariant of the loop: `tDel` is zero or between 5ms and 1s, and so
is every duration slept so far. -/
def LoopState.delaysInRange (st : LoopState) : Prop :=
  (st.tDel = 0 ∨ 5000000 ≤ st.tDel) ∧ st.tDel ≤ 1000000000 ∧
    ∀ d ∈ sleeps st.trace, 5000000 ≤ d ∧ d ≤ 1000000000

/-! ## Sample environment -/

/-- An environment with no test hook, a setup routine that succeeds, and
connection debugging off. -/
def Env.sample : Env :=
  ⟨none, fun s => s, false, fun _ c => c, fun _ _ => Except.ok []⟩

/-- An environment whose setup routine records a failure. -/
def Env.failingSetup : Env :=
  ⟨none, fun s => { s with nextProtoErr := some (GoError.plain "http2: configure failed") },
   false, fun _ c => c, fun _ _ => Except.ok []⟩

/-- A temporary accept failure. -/
def tempFail : AcceptResult := ⟨⟨0⟩, some (GoError.netError "too many open files" true)⟩

/-- A successful accept of socket `n`. -/
def accepted (n : Nat) : AcceptResult := ⟨⟨n⟩, none⟩

/-- A non-temporary accept failure. -/
def closedFail : AcceptResult := ⟨⟨0⟩, some (GoError.plain "use of closed network connection")⟩

/-! ## The loop, one accept at a time -/

theorem int64_of_inRange (x : Int) (h0 : 0 ≤ x) (h1 : x < 2 ^ 63) : int64 x = x := by
  unfold int64
  have h2 : (x + 2 ^ 63) % 2 ^ 64 = x + 2 ^ 63 := by
    apply Int.emod_eq_of_lt
    · omega
    · norm_num at h1 ⊢
      omega
  rw [h2]
  ring

theorem Second_val : Second = (1000000000 : Int) := rfl

theorem Millisecond_val : Millisecond = (1000000 : Int) := rfl

theorem nextDelay_zero : nextDelay 0 = (5000000 : Int) := by
  decide

theorem nextDelay_of_pos (d : Int) (h0 : 0 < d) (h1 : d ≤ 1000000000) :
    nextDelay d = min (d * 2) 1000000000 := by
  have hne : d ≠ 0 := by omega
  have hw : int64 (d * 2) = d * 2 := by
    apply int64_of_inRange
    · omega
    · norm_num
      omega
  simp only [nextDelay, Duration.mul, hne, if_false, hw, one_mul, Second_val]
  split <;> omega

theorem nextDelay_bounds (d : Int) (h0 : d = 0 ∨ 5000000 ≤ d) (h1 : d ≤ 1000000000) :
    5000000 ≤ nextDelay d ∧ nextDelay d ≤ 1000000000 := by
  rcases h0 with h | h
  · rw [h, nextDelay_zero]
    omega
  · rw [nextDelay_of_pos d (by omega) h1]
    omega

theorem nextDelay_iterate (j : Nat) :
    nextDelay^[j + 1] 0 = min (5000000 * 2 ^ j) (1000000000 : Int) := by
  induction j with
  | zero => decide
  | succ j ih =>
    rw [Function.iterate_succ_apply', ih]
    have hp : (0 : Int) < 2 ^ j := by positivity
    have h2 : (5000000 * 2 ^ (j + 1) : Int) = 5000000 * 2 ^ j * 2 := by ring
    rw [h2, nextDelay_of_pos]
    · generalize (2 : Int) ^ j = a at hp
      omega
    · generalize (2 : Int) ^ j = a at hp
      omega
    · generalize (2 : Int) ^ j = a at hp
      omega

theorem acceptIteration_returned (server : Server) (env : Env) (st : LoopState)
    (r : AcceptResult) (e : GoError) (h : st.ret = some e) :
    server.acceptIteration env st r = st := by
  simp [Server.acceptIteration, h]

theorem acceptIteration_temp (server : Server) (env : Env) (st : LoopState)
    (r : AcceptResult) (e : GoError) (h : st.ret = none) (he : r.err = some e)
    (ht : e.isTemporary = true) :
    server.acceptIteration env st r =
      ⟨nextDelay st.tDel,
       st.trace ++ [Event.accept r,
         server.logf "http: Accept failure: %v; try again in %v"
           [LogArg.err e, LogArg.dur (nextDelay st.tDel)],
         Event.sleep (nextDelay st.tDel)],
       none⟩ := by
  simp [Server.acceptIteration, h, he, ht]

theorem acceptIteration_fatal (server : Server) (env : Env) (st : LoopState)
    (r : AcceptResult) (e : GoError) (h : st.ret = none) (he : r.err = some e)
    (ht : e.isTemporary = false) :
    server.acceptIteration env st r = ⟨st.tDel, st.trace ++ [Event.accept r], some e⟩ := by
  simp [Server.acceptIteration, h, he, ht]

theorem acceptIteration_ok (server : Server) (env : Env) (st : LoopState)
    (r : AcceptResult) (h : st.ret = none) (he : r.err = none) :
    server.acceptIteration env st r =
      ⟨0,
       st.trace ++ [Event.accept r, Event.newConn r.rw,
         Event.setState (server.newConn env r.rw) (server.newConn env r.rw).rwc StateNew,
         Event.go (server.newConn env r.rw)],
       none⟩ := by
  simp [Server.acceptIteration, h, he]

theorem loopFrom_nil (server : Server) (env : Env) (st : LoopState) :
    server.loopFrom env st [] = st := rfl

theorem loopFrom_cons (server : Server) (env : Env) (st : LoopState)
    (r : AcceptResult) (l : Listener) :
    server.loopFrom env st (r :: l) =
      server.loopFrom env (server.acceptIteration env st r) l := rfl

theorem loopFrom_append (server : Server) (env : Env) (st : LoopState)
    (l₁ l₂ : Listener) :
    server.loopFrom env st (l₁ ++ l₂) =
      server.loopFrom env (server.loopFrom env st l₁) l₂ := by
  simp [Server.loopFrom, List.foldl_append]

theorem loopFrom_returned (server : Server) (env : Env) (l : Listener) :
    ∀ (st : LoopState) (e : GoError), st.ret = some e → server.loopFrom env st l = st := by
  induction l with
  | nil => intro st e _; rfl
  | cons r l ih =>
    intro st e h
    rw [loopFrom_cons, acceptIteration_returned server env st r e h]
    exact ih st e h

theorem loopFrom_ret (server : Server) (env : Env) (l : Listener) :
    ∀ st : LoopState, st.ret = none → (server.loopFrom env st l).ret = firstFatal l := by
  induction l with
  | nil => intro st h; simpa [loopFrom_nil, firstFatal] using h
  | cons r l ih =>
    intro st h
    rw [loopFrom_cons]
    cases he : r.err with
    | none =>
      rw [acceptIteration_ok server env st r h he, ih _ rfl]
      simp [firstFatal, he]
    | some e =>
      cases ht : e.isTemporary with
      | true =>
        rw [acceptIteration_temp server env st r e h he ht, ih _ rfl]
        simp [firstFatal, he, ht]
      | false =>
        rw [acceptIteration_fatal server env st r e h he ht,
          loopFrom_returned server env l _ e rfl]
        simp [firstFatal, he, ht]

theorem loopFrom_running_left (server : Server) (env : Env) (st : LoopState)
    (l₁ l₂ : Listener) (h : (server.loopFrom env st (l₁ ++ l₂)).ret = none) :
    (server.loopFrom env st l₁).ret = none := by
  rw [loopFrom_append] at h
  cases hr : (server.loopFrom env st l₁).ret with
  | none => rfl
  | some e =>
    rw [loopFrom_returned server env l₂ _ e hr, hr] at h
    exact absurd h (by simp)

/-! ## `Serve` in terms of its loop -/

theorem Serve_of_setup_failed (server : Server) (env : Env) (l : Listener) (e : GoError)
    (h : server.setupErr env = some e) :
    server.Serve env l = ⟨server.ready env, server.prologue env ++ [Event.close], some e⟩ := by
  unfold Server.setupErr at h
  simp only [Server.Serve, Server.ready, Server.prologue, h]

theorem Serve_of_setup_ok (server : Server) (env : Env) (l : Listener)
    (h : server.setupErr env = none) :
    server.Serve env l = (server.loop env l).leave (server.ready env) := by
  unfold Server.setupErr at h
  simp only [Server.Serve, Server.loop, Server.ready, Server.prologue, h]

theorem leave_ret (st : LoopState) (server : Server) : (st.leave server).ret = st.ret := by
  unfold LoopState.leave
  cases h : st.ret <;> simp

theorem leave_server (st : LoopState) (server : Server) : (st.leave server).server = server := by
  unfold LoopState.leave
  cases h : st.ret <;> simp

theorem leave_trace_running (st : LoopState) (server : Server) (h : st.ret = none) :
    (st.leave server).trace = st.trace := by
  simp [LoopState.leave, h]

theorem leave_trace_returned (st : LoopState) (server : Server) (e : GoError)
    (h : st.ret = some e) : (st.leave server).trace = st.trace ++ [Event.close] := by
  simp [LoopState.leave, h]

theorem Serve_running (server : Server) (env : Env) (l : Listener)
    (h : (server.Serve env l).ret = none) :
    server.setupErr env = none ∧ (server.loop env l).ret = none ∧
      (server.Serve env l).trace = (server.loop env l).trace := by
  cases hs : server.setupErr env with
  | some e =>
    rw [Serve_of_setup_failed server env l e hs] at h
    exact absurd h (by simp)
  | none =>
    rw [Serve_of_setup_ok server env l hs, leave_ret] at h
    refine ⟨rfl, h, ?_⟩
    rw [Serve_of_setup_ok server env l hs, leave_trace_running _ _ h]

theorem Serve_server (server : Server) (env : Env) (l : Listener) :
    (server.Serve env l).server = server.ready env := by
  cases hs : server.setupErr env with
  | some e => rw [Serve_of_setup_failed server env l e hs]
  | none => rw [Serve_of_setup_ok server env l hs, leave_server]

theorem Serve_snoc (server : Server) (env : Env) (pre : Listener) (r : AcceptResult)
    (h : (server.Serve env pre).ret = none) :
    server.Serve env (pre ++ [r]) =
      ((server.ready env).acceptIteration env (server.loop env pre) r).leave
        (server.ready env) := by
  obtain ⟨hs, _, _⟩ := Serve_running server env pre h
  rw [Serve_of_setup_ok server env _ hs]
  simp [Server.loop, loopFrom_append, loopFrom_cons, loopFrom_nil]

/-! ## What the trace holds -/

theorem logf_eq_printf (server : Server) (format : String) (args : List LogArg) :
    server.logf format args = Event.printf server.sink format args := by
  unfold Server.logf Server.sink
  cases server.ErrorLog <;> rfl

theorem sleeps_append (a b : List Event) : sleeps (a ++ b) = sleeps a ++ sleeps b := by
  simp [sleeps, List.filterMap_append]

theorem accepts_append (a b : List Event) : accepts (a ++ b) = accepts a ++ accepts b := by
  simp [accepts, List.filterMap_append]

theorem prologue_events (server : Server) (env : Env) :
    ∀ e ∈ server.prologue env, e = Event.testHook ∨ e = Event.onceSetNextProtoDefaults := by
  intro e he
  unfold Server.prologue Server.runTestHook Server.setupHTTP2 Server.nextProtoOnceDo at he
  cases hh : env.testHookServerServe <;> simp only [hh] at he <;> split at he <;> simp at he <;>
    simp [he]

theorem sleeps_prologue (server : Server) (env : Env) : sleeps (server.prologue env) = [] := by
  unfold sleeps
  rw [List.filterMap_eq_nil_iff]
  intro e he
  rcases prologue_events server env e he with h | h <;> simp [h]

theorem accepts_prologue (server : Server) (env : Env) : accepts (server.prologue env) = [] := by
  unfold accepts
  rw [List.filterMap_eq_nil_iff]
  intro e he
  rcases prologue_events server env e he with h | h <;> simp [h]

theorem isTemporary_iff (r : AcceptResult) :
    r.isTemporary = true ↔ ∃ e, r.err = some e ∧ e.isTemporary = true := by
  unfold AcceptResult.isTemporary
  cases r.err <;> simp

theorem sleeps_loopFrom_temps (server : Server) (env : Env) (temps : Listener) :
    ∀ st : LoopState, st.ret = none → (∀ r ∈ temps, r.isTemporary = true) →
      (server.loopFrom env st temps).ret = none ∧
      sleeps (server.loopFrom env st temps).trace =
        sleeps st.trace ++ (List.range temps.length).map (fun j => nextDelay^[j + 1] st.tDel) := by
  induction temps with
  | nil => intro st h _; simp [loopFrom_nil, h]
  | cons r t ih =>
    intro st h ht
    obtain ⟨e, he, hte⟩ := (isTemporary_iff r).1 (ht r (List.mem_cons_self r t))
    rw [loopFrom_cons, acceptIteration_temp server env st r e h he hte]
    obtain ⟨h1, h2⟩ := ih ⟨nextDelay st.tDel,
       st.trace ++ [Event.accept r,
         server.logf "http: Accept failure: %v; try again in %v"
           [LogArg.err e, LogArg.dur (nextDelay st.tDel)],
         Event.sleep (nextDelay st.tDel)],
       none⟩ rfl (fun x hx => ht x (List.mem_cons_of_mem r hx))
    refine ⟨h1, ?_⟩
    rw [h2, List.length_cons, List.range_succ_eq_map, sleeps_append, logf_eq_printf]
    simp [sleeps, List.map_map, Function.comp_def, Function.iterate_succ_apply]

theorem loopFrom_tDel_zero (server : Server) (env : Env) (st : LoopState) (pre : Listener)
    (h0 : st.tDel = 0) (hrun : (server.loopFrom env st pre).ret = none)
    (hlast : ∀ r ∈ pre.getLast?, r.err = none) :
    (server.loopFrom env st pre).tDel = 0 := by
  rcases List.eq_nil_or_concat pre with hp | ⟨p, r, hp⟩
  · rw [hp, loopFrom_nil]
    exact h0
  · rw [List.concat_eq_append] at hp
    subst hp
    have hr : r.err = none := hlast r (by simp)
    have hp : (server.loopFrom env st p).ret = none :=
      loopFrom_running_left server env st p [r] hrun
    rw [loopFrom_append, loopFrom_cons, loopFrom_nil, acceptIteration_ok server env _ r hp hr]

theorem acceptIteration_delaysInRange (server : Server) (env : Env) (st : LoopState)
    (r : AcceptResult) (h : st.delaysInRange) :
    (server.acceptIteration env st r).delaysInRange := by
  cases hret : st.ret with
  | some e => rw [acceptIteration_returned server env st r e hret]; exact h
  | none =>
    obtain ⟨h1, h2, h3⟩ := h
    cases he : r.err with
    | none =>
      rw [acceptIteration_ok server env st r hret he]
      refine ⟨Or.inl rfl, by norm_num, ?_⟩
      intro d hd
      rw [sleeps_append] at hd
      simp [sleeps] at hd
      exact h3 d (by simpa [sleeps] using hd)
    | some e =>
      cases ht : e.isTemporary with
      | true =>
        rw [acceptIteration_temp server env st r e hret he ht]
        have hb := nextDelay_bounds st.tDel h1 h2
        refine ⟨Or.inr hb.1, hb.2, ?_⟩
        intro d hd
        rw [sleeps_append, logf_eq_printf] at hd
        simp [sleeps] at hd
        rcases hd with hd | hd
        · exact h3 d (by simpa [sleeps] using hd)
        · rw [hd]; exact hb
      | false =>
        rw [acceptIteration_fatal server env st r e hret he ht]
        refine ⟨h1, h2, ?_⟩
        intro d hd
        rw [sleeps_append] at hd
        simp [sleeps] at hd
        exact h3 d (by simpa [sleeps] using hd)

theorem loopFrom_delaysInRange (server : Server) (env : Env) (l : Listener) :
    ∀ st : LoopState, st.delaysInRange → (server.loopFrom env st l).delaysInRange := by
  induction l with
  | nil => intro st h; exact h
  | cons r l ih =>
    intro st h
    rw [loopFrom_cons]
    exact ih _ (acceptIteration_delaysInRange server env st r h)

theorem Serve_sleeps_inRange (server : Server) (env : Env) (l : Listener) :
    ∀ d ∈ sleeps (server.Serve env l).trace, 5000000 ≤ d ∧ d ≤ 1000000000 := by
  intro d hd
  cases hs : server.setupErr env with
  | some e =>
    rw [Serve_of_setup_failed server env l e hs] at hd
    simp [sleeps_append, sleeps_prologue] at hd
    simp [sleeps] at hd
  | none =>
    have hinv : (server.loop env l).delaysInRange := by
      apply loopFrom_delaysInRange
      refine ⟨Or.inl rfl, by norm_num, ?_⟩
      intro d hd
      simp [sleeps_prologue] at hd
    rw [Serve_of_setup_ok server env l hs] at hd
    cases hr : (server.loop env l).ret with
    | none =>
      rw [leave_trace_running _ _ hr] at hd
      exact hinv.2.2 d hd
    | some e =>
      rw [leave_trace_returned _ _ e hr, sleeps_append] at hd
      simp [sleeps] at hd
      exact hinv.2.2 d (by simpa [sleeps] using hd)

theorem accepts_loopFrom (server : Server) (env : Env) (l : Listener) :
    ∀ st : LoopState, st.ret = none →
      accepts (server.loopFrom env st l).trace = accepts st.trace ++ acceptedPart l := by
  induction l with
  | nil => intro st _; simp [loopFrom_nil, acceptedPart]
  | cons r l ih =>
    intro st h
    rw [loopFrom_cons]
    cases he : r.err with
    | none =>
      rw [acceptIteration_ok server env st r h he, ih _ rfl, accepts_append]
      simp [accepts, acceptedPart, he]
    | some e =>
      cases ht : e.isTemporary with
      | true =>
        rw [acceptIteration_temp server env st r e h he ht, ih _ rfl, accepts_append,
          logf_eq_printf]
        simp [accepts, acceptedPart, he, ht]
      | false =>
        rw [acceptIteration_fatal server env st r e h he ht,
          loopFrom_returned server env l _ e rfl, accepts_append]
        simp [accepts, acceptedPart, he, ht]

theorem close_mem_acceptIteration (server : Server) (env : Env) (st : LoopState)
    (r : AcceptResult) (h : Event.close ∈ (server.acceptIteration env st r).trace) :
    Event.close ∈ st.trace := by
  cases hret : st.ret with
  | some e => rwa [acceptIteration_returned server env st r e hret] at h
  | none =>
    cases he : r.err with
    | none =>
      rw [acceptIteration_ok server env st r hret he] at h
      simpa using h
    | some e =>
      cases ht : e.isTemporary with
      | true =>
        rw [acceptIteration_temp server env st r e hret he ht, logf_eq_printf] at h
        simpa using h
      | false =>
        rw [acceptIteration_fatal server env st r e hret he ht] at h
        simpa using h

theorem close_mem_loopFrom (server : Server) (env : Env) (l : Listener) :
    ∀ st : LoopState, Event.close ∈ (server.loopFrom env st l).trace → Event.close ∈ st.trace := by
  induction l with
  | nil => intro st h; exact h
  | cons r l ih =>
    intro st h
    rw [loopFrom_cons] at h
    exact close_mem_acceptIteration server env st r (ih _ h)

theorem close_not_mem_prologue (server : Server) (env : Env) :
    Event.close ∉ server.prologue env := by
  intro h
  rcases prologue_events server env _ h with h | h <;> simp at h

theorem setupHTTP2Calls_done (env : Env) (n : Nat) :
    ∀ server : Server, server.nextProtoOnce.done = true →
      Server.setupHTTP2Calls env n server = List.replicate n ([], server.nextProtoErr) := by
  induction n with
  | zero => intro server _; rfl
  | succ n ih =>
    intro server h
    have hs : server.setupHTTP2 env = (server, [], server.nextProtoErr) := by
      simp [Server.setupHTTP2, Server.nextProtoOnceDo, h]
    simp only [Server.setupHTTP2Calls, hs, List.replicate_succ]
    rw [ih server h]

theorem connWork_loopFrom (server : Server) (env : Env) (l : Listener) :
    ∀ st : LoopState, st.ret = none →
      (server.loopFrom env st l).trace.filter Event.isConnWork =
        st.trace.filter Event.isConnWork ++
          (acceptedPart l).flatMap (fun r => Event.accept r :: server.connCalls env r) := by
  induction l with
  | nil => intro st _; simp [loopFrom_nil, acceptedPart]
  | cons r l ih =>
    intro st h
    rw [loopFrom_cons]
    cases he : r.err with
    | none =>
      rw [acceptIteration_ok server env st r h he, ih _ rfl]
      simp [acceptedPart, he, Server.connCalls, Event.isConnWork]
    | some e =>
      cases ht : e.isTemporary with
      | true =>
        rw [acceptIteration_temp server env st r e h he ht, ih _ rfl, logf_eq_printf]
        simp [acceptedPart, he, ht, Server.connCalls, Event.isConnWork]
      | false =>
        rw [acceptIteration_fatal server env st r e h he ht,
          loopFrom_returned server env l _ e rfl]
        simp [acceptedPart, he, ht, Server.connCalls, Event.isConnWork]

theorem connWork_prologue (server : Server) (env : Env) :
    (server.prologue env).filter Event.isConnWork = [] := by
  rw [List.filter_eq_nil_iff]
  intro e he
  rcases prologue_events server env e he with h | h <;> simp [h, Event.isConnWork]

theorem listens_prologue (server : Server) (env : Env) : listens (server.prologue env) = [] := by
  unfold listens
  rw [List.filterMap_eq_nil_iff]
  intro e he
  rcases prologue_events server env e he with h | h <;> simp [h]

theorem listens_append (a b : List Event) : listens (a ++ b) = listens a ++ listens b := by
  simp [listens, List.filterMap_append]

theorem listens_acceptIteration (server : Server) (env : Env) (st : LoopState)
    (r : AcceptResult) :
    listens (server.acceptIteration env st r).trace = listens st.trace := by
  cases hret : st.ret with
  | some e => rw [acceptIteration_returned server env st r e hret]
  | none =>
    cases he : r.err with
    | none =>
      rw [acceptIteration_ok server env st r hret he, listens_append]
      simp [listens]
    | some e =>
      cases ht : e.isTemporary with
      | true =>
        rw [acceptIteration_temp server env st r e hret he ht, logf_eq_printf, listens_append]
        simp [listens]
      | false =>
        rw [acceptIteration_fatal server env st r e hret he ht, listens_append]
        simp [listens]

theorem listens_loopFrom (server : Server) (env : Env) (l : Listener) :
    ∀ st : LoopState, listens (server.loopFrom env st l).trace = listens st.trace := by
  induction l with
  | nil => intro st; rfl
  | cons r l ih =>
    intro st
    rw [loopFrom_cons, ih, listens_acceptIteration]

theorem listens_Serve (server : Server) (env : Env) (l : Listener) :
    listens (server.Serve env l).trace = [] := by
  cases hs : server.setupErr env with
  | some e =>
    rw [Serve_of_setup_failed server env l e hs, listens_append, listens_prologue]
    rfl
  | none =>
    have hl : listens (server.loop env l).trace = [] := by
      unfold Server.loop
      rw [listens_loopFrom, listens_prologue]
    rw [Serve_of_setup_ok server env l hs]
    cases hr : (server.loop env l).ret with
    | none => rw [leave_trace_running _ _ hr, hl]
    | some e =>
      rw [leave_trace_returned _ _ e hr, listens_append, hl]
      rfl

theorem setupHTTP2_Addr (server : Server) (env : Env)
    (hroutine : ∀ s : Server, (env.onceSetNextProtoDefaults s).Addr = s.Addr) :
    (server.setupHTTP2 env).1.Addr = server.Addr := by
  unfold Server.setupHTTP2 Server.nextProtoOnceDo
  split
  · rfl
  · exact hroutine server

theorem runTestHook_Addr (server : Server) (env : Env)
    (hhook : ∀ fn, env.testHookServerServe = some fn → ∀ s : Server, (fn s).Addr = s.Addr) :
    (server.runTestHook env).1.Addr = server.Addr := by
  unfold Server.runTestHook
  cases h : env.testHookServerServe with
  | none => rfl
  | some fn => exact hhook fn h server

theorem ready_Addr (server : Server) (env : Env)
    (hhook : ∀ fn, env.testHookServerServe = some fn → ∀ s : Server, (fn s).Addr = s.Addr)
    (hroutine : ∀ s : Server, (env.onceSetNextProtoDefaults s).Addr = s.Addr) :
    (server.ready env).Addr = server.Addr := by
  unfold Server.ready
  rw [setupHTTP2_Addr _ env hroutine, runTestHook_Addr server env hhook]

/-! ## The claims -/

/-- C1: while `Serve` runs, the delays slept for `k` temporary accept failures
in a row, counted from the start of the loop or from the last successful accept,
are `min(5ms * 2^(j-1), 1s)` for `j = 1..k`; and whatever the accept results,
no delay slept is below 5ms or above 1s. -/
theorem Serve_backoff_delays (server : Server) (env : Env) (pre temps : Listener)
    (hrun : (server.Serve env pre).ret = none)
    (hlast : ∀ r ∈ pre.getLast?, r.err = none)
    (htemps : ∀ r ∈ temps, r.isTemporary = true) :
    sleeps (server.Serve env (pre ++ temps)).trace =
        sleeps (server.Serve env pre).trace ++
          (List.range temps.length).map
            (fun j => min (5 * Millisecond * 2 ^ j) (1 * Second)) ∧
      ∀ listener : Listener, ∀ d ∈ sleeps (server.Serve env listener).trace,
        5 * Millisecond ≤ d ∧ d ≤ 1 * Second := by
  constructor
  · obtain ⟨hs, hr, htr⟩ := Serve_running server env pre hrun
    have h0 : (server.loop env pre).tDel = 0 :=
      loopFrom_tDel_zero (server.ready env) env _ pre rfl hr hlast
    obtain ⟨h1, h2⟩ :=
      sleeps_loopFrom_temps (server.ready env) env temps (server.loop env pre) hr htemps
    have hl : server.loop env (pre ++ temps) =
        (server.ready env).loopFrom env (server.loop env pre) temps := by
      simp [Server.loop, loopFrom_append]
    rw [Serve_of_setup_ok server env _ hs, hl, leave_trace_running _ _ h1, h2, htr, h0]
    congr 1
    apply List.map_congr_left
    intro j _
    rw [nextDelay_iterate, Millisecond_val, Second_val]
    norm_num
  · intro listener d hd
    rw [Millisecond_val, Second_val]
    have := Serve_sleeps_inRange server env listener d hd
    omega

/-- Witness of C1: after one failure and one success, ten failures in a row. -/
theorem Serve_backoff_delays_witness :
    (Server.zero.Serve Env.sample [tempFail, accepted 1]).ret = none ∧
    (∀ r ∈ [tempFail, accepted 1].getLast?, r.err = none) ∧
    (∀ r ∈ List.replicate 10 tempFail, r.isTemporary = true) ∧
    sleeps (Server.zero.Serve Env.sample
        ([tempFail, accepted 1] ++ List.replicate 10 tempFail)).trace =
      sleeps (Server.zero.Serve Env.sample [tempFail, accepted 1]).trace ++
        (List.range (List.replicate 10 tempFail).length).map
          (fun j => min (5 * Millisecond * 2 ^ j) (1 * Second)) :=
  ⟨by decide, by decide, by decide,
    (Serve_backoff_delays Server.zero Env.sample [tempFail, accepted 1]
      (List.replicate 10 tempFail) (by decide) (by decide) (by decide)).1⟩

/-- C2: while `Serve` runs, a temporary accept failure that follows a
successful accept sleeps exactly 5ms, whatever came before the success. -/
theorem Serve_success_resets_delay (server : Server) (env : Env) (pre : Listener)
    (s f : AcceptResult)
    (hrun : (server.Serve env pre).ret = none) (hs : s.err = none)
    (hf : f.isTemporary = true) :
    sleeps (server.Serve env (pre ++ [s, f])).trace =
      sleeps (server.Serve env pre).trace ++ [5 * Millisecond] := by
  obtain ⟨hsetup, hr, htr⟩ := Serve_running server env pre hrun
  obtain ⟨e, he, hte⟩ := (isTemporary_iff f).1 hf
  have hl : server.loop env (pre ++ [s, f]) =
      (server.ready env).acceptIteration env
        ((server.ready env).acceptIteration env (server.loop env pre) s) f := by
    simp [Server.loop, loopFrom_append, loopFrom_cons, loopFrom_nil]
  rw [Serve_of_setup_ok server env _ hsetup, hl,
    acceptIteration_ok (server.ready env) env _ s hr hs,
    acceptIteration_temp (server.ready env) env _ f e rfl he hte,
    leave_trace_running _ _ rfl, htr, logf_eq_printf]
  simp [sleeps, nextDelay_zero, Millisecond_val]

/-- Witness of C2: failure, failure, failure, success, failure sleeps 5ms,
10ms, 20ms and 5ms again. -/
theorem Serve_success_resets_delay_witness :
    (Server.zero.Serve Env.sample [tempFail, tempFail, tempFail]).ret = none ∧
    (accepted 7).err = none ∧ tempFail.isTemporary = true ∧
    sleeps (Server.zero.Serve Env.sample
        ([tempFail, tempFail, tempFail] ++ [accepted 7, tempFail])).trace =
      sleeps (Server.zero.Serve Env.sample [tempFail, tempFail, tempFail]).trace ++
        [5 * Millisecond] ∧
    sleeps (Server.zero.Serve Env.sample
        [tempFail, tempFail, tempFail, accepted 7, tempFail]).trace =
      [5000000, 10000000, 20000000, 5000000] :=
  ⟨by decide, rfl, rfl,
    Serve_success_resets_delay Server.zero Env.sample [tempFail, tempFail, tempFail]
      (accepted 7) tempFail (by decide) rfl rfl,
    by decide⟩

/-- C3: when the setup succeeds, `Serve` returns exactly the first accept error
that is not a temporary `net.Error`, unchanged, and has not returned while there
was none; `Accept` was called for every result up to that error, so neither a
temporary failure nor a successful accept ends the loop. -/
theorem Serve_returns_first_fatal (server : Server) (env : Env) (listener : Listener)
    (hsetup : server.setupErr env = none) :
    (server.Serve env listener).ret = firstFatal listener ∧
      accepts (server.Serve env listener).trace = acceptedPart listener := by
  rw [Serve_of_setup_ok server env listener hsetup, leave_ret]
  have hret : (server.loop env listener).ret = firstFatal listener :=
    loopFrom_ret (server.ready env) env listener _ rfl
  have hacc : accepts (server.loop env listener).trace = acceptedPart listener := by
    unfold Server.loop
    rw [accepts_loopFrom (server.ready env) env listener _ rfl]
    simp [accepts_prologue]
  refine ⟨hret, ?_⟩
  cases hr : (server.loop env listener).ret with
  | none => rw [leave_trace_running _ _ hr, hacc]
  | some e =>
    rw [leave_trace_returned _ _ e hr, accepts_append, hacc]
    simp [accepts]

/-- Witness of C3: a temporary failure and a success do not end the loop, the
closed listener does, and the result after it is never accepted. -/
theorem Serve_returns_first_fatal_witness :
    Server.zero.setupErr Env.sample = none ∧
    (Server.zero.Serve Env.sample [tempFail, accepted 1, closedFail, accepted 2]).ret =
      firstFatal [tempFail, accepted 1, closedFail, accepted 2] ∧
    accepts (Server.zero.Serve Env.sample
        [tempFail, accepted 1, closedFail, accepted 2]).trace =
      acceptedPart [tempFail, accepted 1, closedFail, accepted 2] :=
  ⟨rfl, Serve_returns_first_fatal Server.zero Env.sample
    [tempFail, accepted 1, closedFail, accepted 2] rfl⟩

/-- C4: when `setupHTTP2` returns an error in `Serve`, `Serve` returns that
error, and its trace holds no `Accept`, no `newConn`, no `setState` and no `go`. -/
theorem Serve_setup_failure (server : Server) (env : Env) (listener : Listener)
    (err : GoError) (hsetup : server.setupErr env = some err) :
    (server.Serve env listener).ret = some err ∧
      accepts (server.Serve env listener).trace = [] ∧
      ∀ e ∈ (server.Serve env listener).trace, e.isConnWork = false := by
  rw [Serve_of_setup_failed server env listener err hsetup]
  refine ⟨rfl, ?_, ?_⟩
  · rw [accepts_append, accepts_prologue]
    rfl
  · intro e he
    simp only [List.mem_append, List.mem_singleton] at he
    rcases he with he | he
    · rcases prologue_events server env e he with h | h <;> rw [h] <;> rfl
    · rw [he]; rfl

/-- Witness of C4: the setup routine records a failure. -/
theorem Serve_setup_failure_witness :
    Server.zero.setupErr Env.failingSetup = some (GoError.plain "http2: configure failed") ∧
    (Server.zero.Serve Env.failingSetup [accepted 1, tempFail]).ret =
      some (GoError.plain "http2: configure failed") ∧
    accepts (Server.zero.Serve Env.failingSetup [accepted 1, tempFail]).trace = [] ∧
    ∀ e ∈ (Server.zero.Serve Env.failingSetup [accepted 1, tempFail]).trace,
      e.isConnWork = false :=
  ⟨rfl, Serve_setup_failure Server.zero Env.failingSetup [accepted 1, tempFail]
    (GoError.plain "http2: configure failed") rfl⟩

/-- C5: of `n + 1` sequential calls of `setupHTTP2` on a server whose
`nextProtoOnce` is fresh, the first runs `onceSetNextProtoDefaults` once, the
others do not run it, and all return the `nextProtoErr` that first run left,
failure or not. -/
theorem setupHTTP2_runs_once (env : Env) (server : Server) (n : Nat)
    (hfresh : server.nextProtoOnce.done = false) :
    Server.setupHTTP2Calls env (n + 1) server =
      ([Event.onceSetNextProtoDefaults], (env.onceSetNextProtoDefaults server).nextProtoErr) ::
        List.replicate n ([], (env.onceSetNextProtoDefaults server).nextProtoErr) := by
  have hs : server.setupHTTP2 env =
      ({ env.onceSetNextProtoDefaults server with nextProtoOnce := ⟨true⟩ },
        [Event.onceSetNextProtoDefaults],
        (env.onceSetNextProtoDefaults server).nextProtoErr) := by
    simp [Server.setupHTTP2, Server.nextProtoOnceDo, hfresh]
  simp only [Server.setupHTTP2Calls, hs]
  rw [setupHTTP2Calls_done env n _ rfl]

/-- Witness of C5: four calls, the routine fails; the failure is returned by
all four and the routine ran in the first only. -/
theorem setupHTTP2_runs_once_witness :
    Server.zero.nextProtoOnce.done = false ∧
    Server.setupHTTP2Calls Env.failingSetup (3 + 1) Server.zero =
      ([Event.onceSetNextProtoDefaults],
          (Env.failingSetup.onceSetNextProtoDefaults Server.zero).nextProtoErr) ::
        List.replicate 3
          ([], (Env.failingSetup.onceSetNextProtoDefaults Server.zero).nextProtoErr) :=
  ⟨rfl, setupHTTP2_runs_once Env.failingSetup Server.zero 3 rfl⟩

/-- C10: a `Serve` that has returned, with a setup failure or with an accept
error, has closed the listener once, as its last call; a `Serve` that has not
returned has not closed it. -/
theorem Serve_closes_on_return (server : Server) (env : Env) (listener : Listener) :
    (∃ err tr, (server.Serve env listener).ret = some err ∧
        (server.Serve env listener).trace = tr ++ [Event.close] ∧ Event.close ∉ tr) ∨
      ((server.Serve env listener).ret = none ∧
        Event.close ∉ (server.Serve env listener).trace) := by
  cases hs : server.setupErr env with
  | some e =>
    left
    rw [Serve_of_setup_failed server env listener e hs]
    exact ⟨e, server.prologue env, rfl, rfl, close_not_mem_prologue server env⟩
  | none =>
    have hno : Event.close ∉ (server.loop env listener).trace := fun h =>
      close_not_mem_prologue server env
        (close_mem_loopFrom (server.ready env) env listener _ h)
    rw [Serve_of_setup_ok server env listener hs]
    cases hr : (server.loop env listener).ret with
    | none =>
      right
      rw [leave_ret, leave_trace_running _ _ hr]
      exact ⟨hr, hno⟩
    | some e =>
      left
      rw [leave_ret, leave_trace_returned _ _ e hr]
      exact ⟨e, _, hr, rfl, hno⟩

/-- C6: when the setup succeeds, the `Accept`, `newConn`, `setState` and `go`
calls of `Serve` are, in order, those of the accept results the listener hands
over up to the error that ends the loop: every successful `Accept` is
followed, before the next `Accept`, by exactly one `newConn` on the accepted
socket, one `setState` of that conn to `StateNew` and one `go` of that conn,
and every failed `Accept` by nothing; the conn of `newConn` has this server
and the socket (wrapped by `newLoggingConn` when `debugServerConnections` is
set). -/
theorem Serve_conn_per_accept (server : Server) (env : Env) (listener : Listener)
    (hsetup : server.setupErr env = none) :
    (server.Serve env listener).trace.filter Event.isConnWork =
        (acceptedPart listener).flatMap
          (fun r => Event.accept r ::
            match r.err with
            | none =>
              [Event.newConn r.rw,
               Event.setState ((server.Serve env listener).server.newConn env r.rw)
                 ((server.Serve env listener).server.newConn env r.rw).rwc StateNew,
               Event.go ((server.Serve env listener).server.newConn env r.rw)]
            | some _ => []) ∧
      ∀ rw : NetConn,
        ((server.Serve env listener).server.newConn env rw).server =
            (server.Serve env listener).server ∧
          ((server.Serve env listener).server.newConn env rw).rwc =
            if env.debugServerConnections then env.newLoggingConn "server" rw else rw := by
  constructor
  · rw [Serve_server]
    have hwork : (server.loop env listener).trace.filter Event.isConnWork =
        (acceptedPart listener).flatMap
          (fun r => Event.accept r :: (server.ready env).connCalls env r) := by
      unfold Server.loop
      rw [connWork_loopFrom (server.ready env) env listener _ rfl, connWork_prologue]
      rfl
    rw [Serve_of_setup_ok server env listener hsetup]
    cases hr : (server.loop env listener).ret with
    | none =>
      rw [leave_trace_running _ _ hr, hwork]
      rfl
    | some e =>
      rw [leave_trace_returned _ _ e hr, List.filter_append, hwork]
      simp [Event.isConnWork, Server.connCalls]
  · intro rw
    unfold Server.newConn
    split <;> simp

/-- Witness of C6: a temporary failure, two successes, the closed listener and
a socket that is never accepted; conns are built for sockets 1 and 2 only. -/
theorem Serve_conn_per_accept_witness :
    Server.zero.setupErr Env.sample = none ∧
    (Server.zero.Serve Env.sample
        [tempFail, accepted 1, accepted 2, closedFail, accepted 3]).trace.filter
        Event.isConnWork =
      [Event.accept tempFail,
       Event.accept (accepted 1), Event.newConn ⟨1⟩,
       Event.setState ⟨Server.zero.ready Env.sample, ⟨1⟩⟩ ⟨1⟩ StateNew,
       Event.go ⟨Server.zero.ready Env.sample, ⟨1⟩⟩,
       Event.accept (accepted 2), Event.newConn ⟨2⟩,
       Event.setState ⟨Server.zero.ready Env.sample, ⟨2⟩⟩ ⟨2⟩ StateNew,
       Event.go ⟨Server.zero.ready Env.sample, ⟨2⟩⟩,
       Event.accept closedFail] :=
  ⟨rfl,
    (Serve_conn_per_accept Server.zero Env.sample
      [tempFail, accepted 1, accepted 2, closedFail, accepted 3] rfl).1.trans (by decide)⟩

/-- C9: while `Serve` runs, an `Accept` that fails with a temporary error is
followed, before the next `Accept`, by exactly one `Printf` to the sink of
`logf` and one `Sleep`, the delay printed being the duration slept; an `Accept`
that succeeds, or fails with the error that ends the loop, is followed by no
`Printf` and no `Sleep`. -/
theorem Serve_log_and_sleep (server : Server) (env : Env) (pre : Listener)
    (r : AcceptResult) (hrun : (server.Serve env pre).ret = none) :
    ∃ block : List Event,
      (server.Serve env (pre ++ [r])).trace =
          (server.Serve env pre).trace ++ Event.accept r :: block ∧
        (∀ e ∈ block, e.isAccept = false) ∧
        (∀ err, r.err = some err → err.isTemporary = true →
          ∃ d : Int, block =
            [Event.printf (server.Serve env pre).server.sink
               "http: Accept failure: %v; try again in %v" [LogArg.err err, LogArg.dur d],
             Event.sleep d]) ∧
        (r.isTemporary = false → block.filter Event.isLogOrSleep = []) := by
  obtain ⟨hs, hr, htr⟩ := Serve_running server env pre hrun
  rw [Serve_snoc server env pre r hrun, htr, Serve_server]
  cases he : r.err with
  | none =>
    rw [acceptIteration_ok _ env _ r hr he, leave_trace_running _ _ rfl]
    refine ⟨_, rfl, ?_, ?_, ?_⟩
    · intro e hmem
      simp at hmem
      rcases hmem with h | h | h <;> rw [h] <;> rfl
    · intro err herr
      exact absurd herr (by simp)
    · intro _
      rfl
  | some e =>
    cases ht : e.isTemporary with
    | true =>
      rw [acceptIteration_temp _ env _ r e hr he ht, leave_trace_running _ _ rfl,
        logf_eq_printf]
      refine ⟨_, rfl, ?_, ?_, ?_⟩
      · intro x hmem
        simp at hmem
        rcases hmem with h | h <;> rw [h] <;> rfl
      · intro err herr _
        have hee : e = err := Option.some.inj herr
        subst hee
        exact ⟨_, rfl⟩
      · intro hnt
        simp [AcceptResult.isTemporary, he, ht] at hnt
    | false =>
      rw [acceptIteration_fatal _ env _ r e hr he ht, leave_trace_returned _ _ e rfl]
      refine ⟨[Event.close], by simp, ?_, ?_, ?_⟩
      · intro x hmem
        simp at hmem
        rw [hmem]
        rfl
      · intro err herr hterr
        have hee : e = err := Option.some.inj herr
        subst hee
        rw [ht] at hterr
        exact absurd hterr (by simp)
      · intro _
        rfl

/-- Witness of C9: a successful accept, then a temporary failure. -/
theorem Serve_log_and_sleep_witness :
    (Server.zero.Serve Env.sample [accepted 1]).ret = none ∧
    ∃ block : List Event,
      (Server.zero.Serve Env.sample ([accepted 1] ++ [tempFail])).trace =
          (Server.zero.Serve Env.sample [accepted 1]).trace ++
            Event.accept tempFail :: block ∧
        (∀ e ∈ block, e.isAccept = false) ∧
        (∀ err, tempFail.err = some err → err.isTemporary = true →
          ∃ d : Int, block =
            [Event.printf (Server.zero.Serve Env.sample [accepted 1]).server.sink
               "http: Accept failure: %v; try again in %v" [LogArg.err err, LogArg.dur d],
             Event.sleep d]) ∧
        (tempFail.isTemporary = false → block.filter Event.isLogOrSleep = []) :=
  ⟨by decide, Serve_log_and_sleep Server.zero Env.sample [accepted 1] tempFail (by decide)⟩

/-- C7: `ListenAndServe` makes one `net.Listen` call, on `":http"` when `Addr`
is the empty string and on `Addr` itself, unchanged, otherwise; and `Addr` is
afterwards what it was, provided the test hook and the setup routine reached
through `Serve` leave it alone. -/
theorem ListenAndServe_address (server : Server) (env : Env) :
    listens (server.ListenAndServe env).trace =
        [("tcp", if server.Addr = "" then ":http" else server.Addr)] ∧
      ((∀ fn, env.testHookServerServe = some fn → ∀ s : Server, (fn s).Addr = s.Addr) →
        (∀ s : Server, (env.onceSetNextProtoDefaults s).Addr = s.Addr) →
        (server.ListenAndServe env).server.Addr = server.Addr) := by
  constructor
  · unfold Server.ListenAndServe
    simp only
    split
    · simp [listens]
    · simp only [listens, List.filterMap_cons]
      exact congrArg _ (listens_Serve server env _)
  · intro hhook hroutine
    unfold Server.ListenAndServe
    simp only
    split
    · rfl
    · simp only [Serve_server]
      exact ready_Addr server env hhook hroutine

/-- Witness of C7: an empty `Addr` listens on `":http"` and stays empty. -/
theorem ListenAndServe_address_witness :
    (∀ fn, Env.sample.testHookServerServe = some fn → ∀ s : Server, (fn s).Addr = s.Addr) ∧
    (∀ s : Server, (Env.sample.onceSetNextProtoDefaults s).Addr = s.Addr) ∧
    listens (Server.zero.ListenAndServe Env.sample).trace = [("tcp", ":http")] ∧
    (Server.zero.ListenAndServe Env.sample).server.Addr = "" :=
  ⟨fun fn h => absurd h (by simp [Env.sample]), fun _ => rfl,
    (ListenAndServe_address Server.zero Env.sample).1,
    (ListenAndServe_address Server.zero Env.sample).2
      (fun fn h => absurd h (by simp [Env.sample])) (fun _ => rfl)⟩

end HServer
